import Mathlib

/-!
Verification of the action-search keyword matcher and result-list insertion
of app/dialogs/action-search-dialog.c, and of the dispatch, equality and
(de)serialization wrappers of libgimpconfig/gimpconfig-iface.c, via a
shallow embedding of the C code.
-/

namespace ActionSearch

/-- A token produced by g_str_tokenize_and_fold, as a list of characters. -/
abbrev Token := List Char

/-- Input of action_search_match_keyword, taken at the tokenization boundary:
the keyword (none models a NULL keyword, some its token list), the action's
label tokens and label alternate tokens, and the tooltip tokens together with
the tooltip alternate tokens (none models a NULL tooltip). -/
structure MatchInput where
  keyword : Option (List Token)
  labelTokens : List Token
  labelAlternates : List Token
  tooltip : Option (List Token × List Token)

/-- g_utf8_get_char on a token (the NUL character on an empty token). -/
def firstChar (t : Token) : Char := t.headD (Char.ofNat 0)

/-- Does some token of the list have k as a prefix (g_str_has_prefix)? -/
def anyHasPref (toks : List Token) (k : Token) : Bool :=
  toks.any (fun t => k.isPrefixOf t)

/-- A keyword token matches the label: it is a prefix of some label token or
of some label-alternate token. -/
def tokenFound (lt la : List Token) (k : Token) : Bool :=
  anyHasPref lt k || anyHasPref la k

/-- Value of the loop variable j when control reaches the one_matched label
of the ordered-prefix matcher for one keyword token: the first matching index
in the label tokens, else the first matching index in the label alternates,
else the length of the alternates (both inner loops fell through). -/
def jOf (lt la : List Token) (k : Token) : Nat :=
  match lt.findIdx? (fun t => k.isPrefixOf t) with
  | some j => j
  | none =>
      match la.findIdx? (fun t => k.isPrefixOf t) with
      | some j => j
      | none => la.length

/-- State of the ordered-prefix loop of action_search_match_keyword. -/
structure LoopState where
  matched : Bool
  match_start : Bool
  match_ordered : Bool
  previous_matched : Int
deriving DecidableEq

/-- One iteration of the ordered-prefix loop, for the keyword token it.2
sitting at keyword index it.1. -/
def orderedStep (lt la : List Token) (s : LoopState) (it : Nat × Token) : LoopState :=
  let j : Nat := jOf lt la it.2
  { matched := s.matched && tokenFound lt la it.2
    match_ordered := s.match_ordered && !(decide (s.previous_matched > (j : Int)))
    previous_matched := (j : Int)
    match_start := s.match_start && decide (it.1 = j) }

/-- The ordered-prefix loop over all keyword tokens, from its initial state. -/
def orderedStage (ktoks lt la : List Token) : LoopState :=
  (ktoks.enum).foldl (orderedStep lt la)
    { matched := true, match_start := true, match_ordered := true, previous_matched := -1 }

/-- State of the tooltip-fallback loop. -/
structure TooltipState where
  matched : Bool
  mixed_match : Bool
deriving DecidableEq

/-- One iteration of the tooltip-fallback loop for one keyword token: the four
inner loops scan the tooltip tokens, tooltip alternates, label tokens and
label alternates in that order; mixed_match is raised when only one of the two
label loops hits. -/
def tooltipStep (ttoks talts lt la : List Token) (s : TooltipState) (k : Token) :
    TooltipState :=
  let inTooltip := anyHasPref ttoks k || anyHasPref talts k
  let inLabel := anyHasPref lt k || anyHasPref la k
  { matched := s.matched && (inTooltip || inLabel)
    mixed_match := s.mixed_match || (!inTooltip && inLabel) }

/-- The tooltip-fallback loop over all keyword tokens. -/
def tooltipStage (ktoks ttoks talts lt la : List Token) : TooltipState :=
  ktoks.foldl (tooltipStep ttoks talts lt la) { matched := true, mixed_match := false }

/-- The two-letter-initials heuristic: a single two-character keyword token
whose characters equal the initial characters of the first two label tokens
(or of the first two label-alternate tokens). -/
def twoLetterMatch (ktoks lt la : List Token) : Bool :=
  (decide (ktoks.length = 1) && decide ((ktoks.headD []).length = 2)) &&
  ((decide (1 < lt.length) &&
      decide (firstChar (lt.getD 0 []) = firstChar (ktoks.headD [])) &&
      decide (firstChar (lt.getD 1 []) = (ktoks.headD []).getD 1 (Char.ofNat 0))) ||
   (decide (1 < la.length) &&
      decide (firstChar (la.getD 0 []) = firstChar (ktoks.headD [])) &&
      decide (firstChar (la.getD 1 []) = (ktoks.headD []).getD 1 (Char.ofNat 0))))

/-- action_search_match_keyword, modelled from the tokenization boundary on.
Returns the match result together with the value written through the section
pointer (none when no pointer was supplied or nothing was written). -/
def action_search_match_keyword (hasSection : Bool) (inp : MatchInput) :
    Bool × Option Nat :=
  match inp.keyword with
  | none => (true, if hasSection then some 0 else none)
  | some ktoks =>
      let lt := inp.labelTokens
      let la := inp.labelAlternates
      if twoLetterMatch ktoks lt la then
        (true, if hasSection then some 1 else none)
      else if 0 < lt.length ∧ (orderedStage ktoks lt la).matched = true then
        (true,
          if hasSection then
            some (if (orderedStage ktoks lt la).match_ordered then
                    (if (orderedStage ktoks lt la).match_start then 1 else 2)
                  else 3)
          else none)
      else if 2 < (ktoks.headD []).length then
        match inp.tooltip with
        | none => (false, none)
        | some (ttoks, talts) =>
            if 0 < ttoks.length ∧ (tooltipStage ktoks ttoks talts lt la).matched = true then
              (true,
                if hasSection then
                  some (if (tooltipStage ktoks ttoks talts lt la).mixed_match then 5 else 4)
                else none)
            else (false, none)
      else (false, none)

/-- The label-based heuristics (two-letter initials, then ordered-prefix) of
action_search_match_keyword produced a match. -/
def labelStagesMatched (ktoks lt la : List Token) : Bool :=
  twoLetterMatch ktoks lt la ||
    (decide (0 < lt.length) && (orderedStage ktoks lt la).matched)

/-- The tooltip fallback of action_search_match_keyword produced a match
(given that the label-based heuristics did not). -/
def tooltipFallbackMatched (ktoks lt la : List Token)
    (tt : Option (List Token × List Token)) : Bool :=
  decide (2 < (ktoks.headD []).length) &&
  (match tt with
   | none => false
   | some (ttoks, talts) =>
       decide (0 < ttoks.length) && (tooltipStage ktoks ttoks talts lt la).matched)

/-- Positions are the keyword indices themselves, starting at n. -/
def startOk : Nat → List Nat → Bool
  | _, [] => true
  | n, j :: js => decide (n = j) && startOk (n + 1) js

/-- The consecutive comparisons of the ordered-prefix loop hold, starting
from the previous position p. -/
def ordOk : Int → List Nat → Bool
  | _, [] => true
  | p, j :: js => !(decide (p > (j : Int))) && ordOk (j : Int) js

/-- Head of the position list is at least p (trivially true when empty). -/
def headLeB (p : Int) (js : List Nat) : Bool :=
  match js with
  | [] => true
  | j :: _ => decide (p ≤ (j : Int))

/-- Final value of the previous_matched variable. -/
def lastD : Int → List Nat → Int
  | p, [] => p
  | _, j :: js => lastD (j : Int) js

/-- A row of the results list: its COLUMN_SECTION value and a payload
standing for the remaining columns. -/
structure Row where
  sect : Int
  payload : Nat
deriving DecidableEq

/-- The insertion walk of action_search_add_to_results_list: walk the rows and
insert the new row before the first row whose section is strictly greater than
the new row's section; append when no row is strictly greater. -/
def action_search_add_to_results_list (r : Row) : List Row → List Row
  | [] => [r]
  | x :: xs =>
      if r.sect < x.sect then r :: x :: xs
      else x :: action_search_add_to_results_list r xs

end ActionSearch

namespace GimpConfig

/-- Flags of a GParamSpec relevant to the default equality implementation:
G_PARAM_READABLE, GIMP_CONFIG_PARAM_AGGREGATE, whether the spec is an object
spec (G_IS_PARAM_SPEC_OBJECT), and whether the spec's value type implements
the GimpConfig interface. -/
structure PropSpec where
  readable : Bool
  aggregate : Bool
  objSpec : Bool
  hasConfigIface : Bool

/-- A GValue: either a non-object value or an object reference carrying its
type, its identity (the pointer), and its property values. -/
inductive GVal where
  | prim (n : Int)
  | obj (ty : Nat) (oid : Nat) (vals : List GVal)

/-- g_param_values_cmp as used by the default equality: nonzero (true) when
the two values differ; object-valued properties compare by identity. -/
def valuesDiffer : GVal → GVal → Bool
  | GVal.prim n, GVal.prim m => decide (n ≠ m)
  | GVal.obj _ i _, GVal.obj _ j _ => decide (i ≠ j)
  | _, _ => true

mutual

/-- gimp_config_is_equal_to with the default interface implementation: the
guards reject non-config values and differing types, then the properties of
the shared class (C applied to the type) are compared pairwise. -/
def gimp_config_is_equal_to (C : Nat → List PropSpec) : GVal → GVal → Bool
  | GVal.obj ta _ as, GVal.obj tb _ bs =>
      if ta = tb then ifaceEqualProps C (C ta) as bs else false
  | _, _ => false
termination_by a b => sizeOf a

/-- The property loop of gimp_config_iface_equal: non-readable properties are
skipped; a property whose values compare equal passes; a differing aggregate
object-valued property whose value type implements GimpConfig is compared
recursively; any other differing property makes the objects unequal. -/
def ifaceEqualProps (C : Nat → List PropSpec) :
    List PropSpec → List GVal → List GVal → Bool
  | s :: ss, a :: as, b :: bs =>
      (if s.readable then
         (if valuesDiffer a b then
            (if s.aggregate && s.objSpec && s.hasConfigIface then
               gimp_config_is_equal_to C a b
             else false)
          else true)
       else true) && ifaceEqualProps C ss as bs
  | _, _, _ => true
termination_by ss as bs => sizeOf as

end

/-- A config object for the thin dispatch layer: its validity (GIMP_IS_CONFIG)
and its GimpConfigInterface callbacks. -/
structure ConfigDispatch (W S D : Type) where
  isConfig : Bool
  serialize : W → D → Bool
  deserialize : S → Int → D → Bool

/-- gimp_config_serialize: a validity guard, then the interface's serialize
callback on the same arguments. Returns the result together with a flag
recording whether the callback was invoked. -/
def gimp_config_serialize (W S D : Type) (config : ConfigDispatch W S D)
    (writer : W) (data : D) : Bool × Bool :=
  if config.isConfig then (config.serialize writer data, true) else (false, false)

/-- gimp_config_deserialize: a validity guard, then the interface's
deserialize callback on the same arguments. Returns the result together with
a flag recording whether the callback was invoked. -/
def gimp_config_deserialize (W S D : Type) (config : ConfigDispatch W S D)
    (scanner : S) (nest_level : Int) (data : D) : Bool × Bool :=
  if config.isConfig then (config.deserialize scanner nest_level data, true)
  else (false, false)

/-- gimp_config_deserialize_file, parametric over the result of
gimp_scanner_new_file (the scanner, if any, and the error it wrote) and over
the interface's deserialize callback (its result and the error it wrote).
Returns the result, the final content of a supplied error location, and a
flag recording whether the deserialize callback was invoked. -/
def gimp_config_deserialize_file (S E : Type) (valid : Bool)
    (scanner_new : Option S × Option E)
    (deserialize : Option S → Bool × Option E) (hasLoc : Bool) :
    Bool × Option E × Bool :=
  if valid then
    match scanner_new.1 with
    | none => (false, if hasLoc then scanner_new.2 else none, false)
    | some s =>
        let r := deserialize (some s)
        (r.1,
         if hasLoc then (match r.2 with | some e => some e | none => scanner_new.2)
         else none,
         true)
  else (false, none, false)

/-- gimp_config_deserialize_gfile, parametric like the file variant. -/
def gimp_config_deserialize_gfile (S E : Type) (valid : Bool)
    (scanner_new : Option S × Option E)
    (deserialize : Option S → Bool × Option E) (hasLoc : Bool) :
    Bool × Option E × Bool :=
  if valid then
    match scanner_new.1 with
    | none => (false, if hasLoc then scanner_new.2 else none, false)
    | some s =>
        let r := deserialize (some s)
        (r.1,
         if hasLoc then (match r.2 with | some e => some e | none => scanner_new.2)
         else none,
         true)
  else (false, none, false)

/-- gimp_config_deserialize_stream, parametric like the file variant. -/
def gimp_config_deserialize_stream (S E : Type) (valid : Bool)
    (scanner_new : Option S × Option E)
    (deserialize : Option S → Bool × Option E) (hasLoc : Bool) :
    Bool × Option E × Bool :=
  if valid then
    match scanner_new.1 with
    | none => (false, if hasLoc then scanner_new.2 else none, false)
    | some s =>
        let r := deserialize (some s)
        (r.1,
         if hasLoc then (match r.2 with | some e => some e | none => scanner_new.2)
         else none,
         true)
  else (false, none, false)

/-- gimp_config_deserialize_string: unlike the other three variants the code
has no check of the created scanner; the deserialize callback receives
whatever gimp_scanner_new_string returned. textOk models the precondition
text != NULL or text_len == 0. -/
def gimp_config_deserialize_string (S E : Type) (valid textOk : Bool)
    (scanner_new : Option S × Option E)
    (deserialize : Option S → Bool × Option E) (hasLoc : Bool) :
    Bool × Option E × Bool :=
  if valid && textOk then
    let r := deserialize scanner_new.1
    (r.1,
     if hasLoc then (match r.2 with | some e => some e | none => scanner_new.2)
     else none,
     true)
  else (false, none, false)

/-- gimp_config_serialize_to_file: guards, writer creation, the serialize
callback (whose boolean result is discarded and whose effect on the writer is
kept), then gimp_config_writer_finish decides the result. -/
def gimp_config_serialize_to_file (W : Type) (valid filenameOk : Bool)
    (writer_new : Option W) (serialize : W → Bool × W)
    (writer_finish : W → Bool) : Bool :=
  if valid && filenameOk then
    match writer_new with
    | none => false
    | some w => writer_finish (serialize w).2
  else false

/-- The buffer of the GString writer used by gimp_config_serialize_to_string. -/
abbrev GStr := List Char

/-- gimp_config_serialize_to_string: a validity guard, a fresh empty string
writer, the serialize callback and gimp_config_writer_finish (both boolean
results discarded, both buffer effects kept), then the buffer is returned. -/
def gimp_config_serialize_to_string (valid : Bool)
    (serialize : GStr → Bool × GStr)
    (writer_finish : GStr → Bool × GStr) : Option GStr :=
  if valid then some (writer_finish (serialize []).2).2 else none

end GimpConfig

namespace ActionSearch

theorem foldl_orderedStep (lt la : List Token) (ktoks : List Token) :
    ∀ (n : Nat) (s : LoopState),
      (List.enumFrom n ktoks).foldl (orderedStep lt la) s =
        { matched := s.matched && ktoks.all (tokenFound lt la)
          match_start := s.match_start && startOk n (ktoks.map (jOf lt la))
          match_ordered := s.match_ordered && ordOk s.previous_matched (ktoks.map (jOf lt la))
          previous_matched := lastD s.previous_matched (ktoks.map (jOf lt la)) } := by
  induction ktoks with
  | nil => intro n s; simp [startOk, ordOk, lastD]
  | cons k ks ih =>
      intro n s
      simp only [List.enumFrom, List.foldl_cons, List.map_cons, List.all_cons,
        startOk, ordOk, lastD]
      rw [ih]
      simp [orderedStep, Bool.and_assoc]

theorem orderedStage_matched (ktoks lt la : List Token) :
    (orderedStage ktoks lt la).matched = ktoks.all (tokenFound lt la) := by
  unfold orderedStage
  rw [List.enum, foldl_orderedStep]
  simp

theorem orderedStage_match_start (ktoks lt la : List Token) :
    (orderedStage ktoks lt la).match_start = startOk 0 (ktoks.map (jOf lt la)) := by
  unfold orderedStage
  rw [List.enum, foldl_orderedStep]
  simp

theorem orderedStage_match_ordered (ktoks lt la : List Token) :
    (orderedStage ktoks lt la).match_ordered = ordOk (-1) (ktoks.map (jOf lt la)) := by
  unfold orderedStage
  rw [List.enum, foldl_orderedStep]
  simp

end ActionSearch

namespace ActionSearch

theorem startOk_eq_range (js : List Nat) :
    ∀ n, startOk n js = decide (js = List.range' n js.length) := by
  induction js with
  | nil => intro n; simp [startOk]
  | cons j js ih =>
      intro n
      simp only [startOk, ih, List.length_cons, List.range'_succ, List.cons.injEq]
      simp [eq_comm, Bool.decide_and]

theorem not_decide_gt (p q : Int) : (!(decide (p > q))) = decide (p ≤ q) := by
  by_cases h : p > q
  · simp [h, (by omega : ¬ p ≤ q)]
  · simp [h, (by omega : p ≤ q)]

theorem ordOk_eq_chain (js : List Nat) :
    ∀ p : Int,
      ordOk p js =
        (headLeB p js && decide (List.Chain' (fun a b => a ≤ b) js)) := by
  induction js with
  | nil => intro p; rfl
  | cons j js ih =>
      intro p
      rw [show ordOk p (j :: js) =
            (!(decide (p > (j : Int))) && ordOk (j : Int) js) from rfl, ih,
        not_decide_gt]
      cases js with
      | nil => simp [headLeB]
      | cons j2 js2 =>
          simp only [headLeB, List.chain'_cons]
          simp [Bool.and_assoc]

theorem ordOk_neg_one (js : List Nat) :
    ordOk (-1) js = decide (List.Chain' (fun a b => a ≤ b) js) := by
  rw [ordOk_eq_chain]
  cases js with
  | nil => rfl
  | cons j js =>
      have h : ((-1 : Int) ≤ (j : Int)) := by omega
      simp [headLeB, h]

theorem chain_le_range (n : Nat) :
    List.Chain' (fun a b => a ≤ b) (List.range n) := by
  exact ((List.pairwise_lt_range n).imp le_of_lt).chain'

end ActionSearch

namespace ActionSearch

theorem foldl_tooltipStep (ttoks talts lt la : List Token) (ktoks : List Token) :
    ∀ s : TooltipState,
      ktoks.foldl (tooltipStep ttoks talts lt la) s =
        { matched := s.matched &&
            ktoks.all (fun k => tokenFound ttoks talts k || tokenFound lt la k)
          mixed_match := s.mixed_match ||
            ktoks.any (fun k => !(tokenFound ttoks talts k) && tokenFound lt la k) } := by
  induction ktoks with
  | nil => intro s; simp
  | cons k ks ih =>
      intro s
      simp only [List.foldl_cons, List.all_cons, List.any_cons]
      rw [ih]
      simp [tooltipStep, tokenFound, Bool.and_assoc, Bool.or_assoc]

theorem tooltipStage_matched (ktoks ttoks talts lt la : List Token) :
    (tooltipStage ktoks ttoks talts lt la).matched =
      ktoks.all (fun k => tokenFound ttoks talts k || tokenFound lt la k) := by
  unfold tooltipStage
  rw [foldl_tooltipStep]
  simp

theorem tooltipStage_mixed (ktoks ttoks talts lt la : List Token) :
    (tooltipStage ktoks ttoks talts lt la).mixed_match =
      ktoks.any (fun k => !(tokenFound ttoks talts k) && tokenFound lt la k) := by
  unfold tooltipStage
  rw [foldl_tooltipStep]
  simp

end ActionSearch

namespace ActionSearch

/-- Claim C1 (amended): for every action whose label yields at least one token
and every non-NULL keyword, provided the two-letter-initials heuristic did not
already fire (it preempts this stage and writes section 1), if every keyword
token is a prefix of some token of the action's label or of its alternate
tokenization then action_search_match_keyword returns TRUE and, with a section
pointer supplied, sets the section to 1 when the matched label-token positions
are position-for-position from the start, to 2 when they are nondecreasing but
not position-for-position from the start, and to 3 when they are out of order;
and if some keyword token is a prefix of no label token and the tooltip
fallback also fails, the function returns FALSE. -/
theorem ordered_prefix_matching_sections (inp : MatchInput) (ktoks : List Token)
    (hk : inp.keyword = some ktoks)
    (hlab : inp.labelTokens ≠ [])
    (h2 : twoLetterMatch ktoks inp.labelTokens inp.labelAlternates = false) :
    (ktoks.all (tokenFound inp.labelTokens inp.labelAlternates) = true →
      action_search_match_keyword true inp =
        (true,
         some (if ktoks.map (jOf inp.labelTokens inp.labelAlternates) =
                    List.range ktoks.length then 1
               else if List.Chain' (fun a b => a ≤ b)
                       (ktoks.map (jOf inp.labelTokens inp.labelAlternates)) then 2
               else 3))) ∧
    (ktoks.all (tokenFound inp.labelTokens inp.labelAlternates) = false →
     tooltipFallbackMatched ktoks inp.labelTokens inp.labelAlternates inp.tooltip = false →
      (action_search_match_keyword true inp).1 = false) := by
  obtain ⟨kw, lt, la, tt⟩ := inp
  dsimp only at hk hlab h2 ⊢
  subst hk
  constructor
  · intro hall
    have hlen : 0 < lt.length := List.length_pos.mpr hlab
    have hm : (orderedStage ktoks lt la).matched = true := by
      rw [orderedStage_matched]; exact hall
    have hlenmap : (ktoks.map (jOf lt la)).length = ktoks.length := List.length_map _ _
    simp only [action_search_match_keyword, h2, Bool.false_eq_true, if_false]
    rw [if_pos ⟨hlen, hm⟩]
    rw [orderedStage_match_ordered, orderedStage_match_start, ordOk_neg_one,
      startOk_eq_range, hlenmap, ← List.range_eq_range']
    by_cases hs : ktoks.map (jOf lt la) = List.range ktoks.length
    · have hc : List.Chain' (fun a b => a ≤ b) (ktoks.map (jOf lt la)) := by
        rw [hs]; exact chain_le_range _
      simp [hs, hc, chain_le_range]
    · by_cases hc : List.Chain' (fun a b => a ≤ b) (ktoks.map (jOf lt la))
      · simp [hs, hc]
      · simp [hs, hc]
  · intro hall hfall
    have hm : (orderedStage ktoks lt la).matched = false := by
      rw [orderedStage_matched]; exact hall
    simp only [action_search_match_keyword, h2, Bool.false_eq_true, if_false]
    rw [if_neg (by simp [hm])]
    simp only [tooltipFallbackMatched, Bool.and_eq_false_iff] at hfall
    by_cases hl3 : 2 < (ktoks.headD []).length
    · rw [if_pos hl3]
      cases tt with
      | none => rfl
      | some p =>
          obtain ⟨ttoks, talts⟩ := p
          dsimp only
          have h9 : (decide (0 < ttoks.length) &&
              (tooltipStage ktoks ttoks talts lt la).matched) = false := by
            rcases hfall with h | h
            · rw [decide_eq_false_iff_not] at h; exact absurd hl3 h
            · exact h
          have hneg : ¬(0 < ttoks.length ∧
              (tooltipStage ktoks ttoks talts lt la).matched = true) := by
            intro hcon
            rcases Bool.and_eq_false_iff.mp h9 with h1 | h1
            · rw [decide_eq_false_iff_not] at h1; exact h1 hcon.1
            · exact absurd hcon.2 (by simp [h1])
          rw [if_neg hneg]
    · rw [if_neg hl3]

end ActionSearch

namespace ActionSearch

/-- Claim C1 counterexample: for the single keyword token ab and the label
tokens apple, bee, abacus, every keyword token is a prefix of some label token
and the matched positions are nondecreasing but not position-for-position from
the start, so the claim as stated predicts section 2; the code returns TRUE
with section 1, because the two-letter-initials heuristic fires first. -/
theorem ordered_prefix_two_letter_preemption :
    ([(['a','b'] : Token)].all
       (tokenFound [['a','p','p','l','e'],['b','e','e'],['a','b','a','c','u','s']] []) = true) ∧
    action_search_match_keyword true
      ⟨some [['a','b']],
       [['a','p','p','l','e'],['b','e','e'],['a','b','a','c','u','s']], [], none⟩ =
      (true, some 1) ∧
    ¬([(['a','b'] : Token)].map
        (jOf [['a','p','p','l','e'],['b','e','e'],['a','b','a','c','u','s']] []) =
      List.range 1) ∧
    List.Chain' (fun a b => a ≤ b)
      ([(['a','b'] : Token)].map
        (jOf [['a','p','p','l','e'],['b','e','e'],['a','b','a','c','u','s']] [])) ∧
    (1 : Nat) ≠ 2 := by
  refine ⟨by decide, by decide, by decide, ?_, by decide⟩
  rw [show List.map
      (jOf [['a','p','p','l','e'],['b','e','e'],['a','b','a','c','u','s']] [])
      [(['a','b'] : Token)] = [2] from rfl]
  exact List.chain'_singleton 2

/-- Claim C1 witness: keyword token blu against label tokens gauss, blur
matches in order but not from the start, giving section 2. -/
theorem ordered_prefix_matching_sections_witness :
    action_search_match_keyword true
      ⟨some [['b','l','u']], [['g','a','u','s','s'],['b','l','u','r']], [], none⟩ =
      (true, some 2) := by
  have h := ordered_prefix_matching_sections
    ⟨some [['b','l','u']], [['g','a','u','s','s'],['b','l','u','r']], [], none⟩
    [['b','l','u']] rfl (by decide) (by decide)
  have h2 := h.1 (by decide)
  rw [h2]
  dsimp only
  rw [show List.map (jOf [['g','a','u','s','s'],['b','l','u','r']] [])
      [(['b','l','u'] : Token)] = [1] from rfl]
  rw [if_neg (by decide), if_pos (List.chain'_singleton 1)]

/-- Claim C2: for every action and every non-NULL keyword that tokenizes to
exactly one token of exactly two characters c1 and c2, if the label
tokenization (or its alternate tokenization) has at least two tokens with
first characters c1 and c2 respectively, then action_search_match_keyword
returns TRUE and sets the supplied section to 1. -/
theorem two_letter_initials_match (inp : MatchInput) (c1 c2 : Char)
    (hk : inp.keyword = some [[c1, c2]])
    (hl : (1 < inp.labelTokens.length ∧
             firstChar (inp.labelTokens.getD 0 []) = c1 ∧
             firstChar (inp.labelTokens.getD 1 []) = c2) ∨
          (1 < inp.labelAlternates.length ∧
             firstChar (inp.labelAlternates.getD 0 []) = c1 ∧
             firstChar (inp.labelAlternates.getD 1 []) = c2)) :
    action_search_match_keyword true inp = (true, some 1) := by
  obtain ⟨kw, lt, la, tt⟩ := inp
  dsimp only at hk hl ⊢
  subst hk
  have h2 : twoLetterMatch [[c1, c2]] lt la = true := by
    unfold twoLetterMatch
    rcases hl with ⟨ha, hb, hc⟩ | ⟨ha, hb, hc⟩ <;> simp_all [firstChar]
  simp [action_search_match_keyword, h2]

/-- Claim C2 witness: keyword token gb against label tokens gauss, blur. -/
theorem two_letter_initials_match_witness :
    action_search_match_keyword true
      ⟨some [['g','b']], [['g','a','u','s','s'],['b','l','u','r']], [], none⟩ =
      (true, some 1) :=
  two_letter_initials_match
    ⟨some [['g','b']], [['g','a','u','s','s'],['b','l','u','r']], [], none⟩
    'g' 'b' rfl (Or.inl (by decide))

/-- Claim C8: for every action, action_search_match_keyword with a NULL
keyword returns TRUE without examining the action (the result is the same for
all label and tooltip inputs), and a supplied section pointer is set to 0. -/
theorem null_keyword_matches_all (hasSection : Bool) (inp : MatchInput)
    (hk : inp.keyword = none) :
    action_search_match_keyword hasSection inp =
      (true, if hasSection then some 0 else none) := by
  obtain ⟨kw, lt, la, tt⟩ := inp
  dsimp only at hk ⊢
  subst hk
  rfl

/-- Claim C8 witness: a NULL keyword matches an arbitrary action. -/
theorem null_keyword_matches_all_witness :
    action_search_match_keyword true
      ⟨none, [['a']], [], some ([['b']], [])⟩ = (true, some 0) := by
  have h := null_keyword_matches_all true ⟨none, [['a']], [], some ([['b']], [])⟩ rfl
  rw [h]
  rfl

/-- Claim C9: for every action whose label yields at least one token, a
non-NULL keyword that tokenizes to zero tokens makes
action_search_match_keyword return TRUE with the supplied section set to 1:
the per-keyword-token loop is vacuous and the match flag was pre-set. -/
theorem tokenless_keyword_matches (inp : MatchInput)
    (hk : inp.keyword = some [])
    (hlab : inp.labelTokens ≠ []) :
    action_search_match_keyword true inp = (true, some 1) := by
  obtain ⟨kw, lt, la, tt⟩ := inp
  dsimp only at hk hlab ⊢
  subst hk
  have hlen : 0 < lt.length := List.length_pos.mpr hlab
  have h2 : twoLetterMatch [] lt la = false := rfl
  have hm : (orderedStage [] lt la).matched = true := rfl
  simp only [action_search_match_keyword, h2, Bool.false_eq_true, if_false]
  rw [if_pos ⟨hlen, hm⟩]
  rfl

/-- Claim C9 witness: a token-less keyword against label token g. -/
theorem tokenless_keyword_matches_witness :
    action_search_match_keyword true ⟨some [], [['g']], [], none⟩ = (true, some 1) :=
  tokenless_keyword_matches ⟨some [], [['g']], [], none⟩ rfl (by decide)

end ActionSearch

namespace ActionSearch

/-- Claim C3: for every action with a non-NULL tooltip and every non-NULL
keyword, when the label-based heuristics did not match: if the first keyword
token is strictly longer than two characters, the function returns TRUE
exactly when the tooltip tokenization is non-empty and every keyword token is
a prefix of some tooltip token, tooltip-alternate token, label token or
label-alternate token, in which case the supplied section is set to 5 when at
least one keyword token matched only in the label (mixed match) and to 4
otherwise; and keywords whose first token has two or fewer characters never
match via the tooltip. -/
theorem tooltip_fallback_match (inp : MatchInput) (ktoks ttoks talts : List Token)
    (hk : inp.keyword = some ktoks)
    (htt : inp.tooltip = some (ttoks, talts))
    (hlf : labelStagesMatched ktoks inp.labelTokens inp.labelAlternates = false) :
    (2 < (ktoks.headD []).length →
      (((action_search_match_keyword true inp).1 = true) ↔
        (ttoks ≠ [] ∧ ∀ k ∈ ktoks,
          (tokenFound ttoks talts k ||
           tokenFound inp.labelTokens inp.labelAlternates k) = true)) ∧
      ((ttoks ≠ [] ∧ ∀ k ∈ ktoks,
          (tokenFound ttoks talts k ||
           tokenFound inp.labelTokens inp.labelAlternates k) = true) →
        action_search_match_keyword true inp =
          (true,
           some (if ktoks.any (fun k => !(tokenFound ttoks talts k) &&
                   tokenFound inp.labelTokens inp.labelAlternates k) then 5 else 4)))) ∧
    ((ktoks.headD []).length ≤ 2 → (action_search_match_keyword true inp).1 = false) := by
  obtain ⟨kw, lt, la, tt⟩ := inp
  dsimp only at hk htt hlf ⊢
  subst hk
  subst htt
  rw [labelStagesMatched, Bool.or_eq_false_iff, Bool.and_eq_false_iff] at hlf
  obtain ⟨h2, hord⟩ := hlf
  have hno : ¬(0 < lt.length ∧ (orderedStage ktoks lt la).matched = true) := by
    intro hcon
    rcases hord with h | h
    · rw [decide_eq_false_iff_not] at h; exact h hcon.1
    · exact absurd hcon.2 (by simp [h])
  constructor
  · intro hl3
    have hred : action_search_match_keyword true
        ⟨some ktoks, lt, la, some (ttoks, talts)⟩ =
        (if 0 < ttoks.length ∧ (tooltipStage ktoks ttoks talts lt la).matched = true then
          (true, some (if (tooltipStage ktoks ttoks talts lt la).mixed_match then 5 else 4))
        else (false, none)) := by
      simp only [action_search_match_keyword, h2, Bool.false_eq_true, if_false]
      rw [if_neg hno, if_pos hl3]
      by_cases hc : 0 < ttoks.length ∧ (tooltipStage ktoks ttoks talts lt la).matched = true
      · rw [if_pos hc, if_pos hc]
        rfl
      · rw [if_neg hc, if_neg hc]
    constructor
    · rw [hred]
      by_cases hc : 0 < ttoks.length ∧ (tooltipStage ktoks ttoks talts lt la).matched = true
      · rw [if_pos hc]
        simp only [true_iff]
        refine ⟨List.length_pos.mp hc.1, ?_⟩
        have := hc.2
        rw [tooltipStage_matched] at this
        intro k hkmem
        exact List.all_eq_true.mp this k hkmem
      · rw [if_neg hc]
        constructor
        · intro hfalse
          simp at hfalse
        · intro hcon
          exact absurd ⟨List.length_pos.mpr hcon.1,
            by rw [tooltipStage_matched]; exact List.all_eq_true.mpr hcon.2⟩ hc
    · intro hcon
      rw [hred, if_pos ⟨List.length_pos.mpr hcon.1,
        by rw [tooltipStage_matched]; exact List.all_eq_true.mpr hcon.2⟩]
      rw [tooltipStage_mixed]
  · intro hl3
    simp only [action_search_match_keyword, h2, Bool.false_eq_true, if_false]
    rw [if_neg hno, if_neg (by omega)]

end ActionSearch

namespace ActionSearch

/-- Claim C3 witness: keyword token xyz against label token g with tooltip
token xyzw matches only via the tooltip, giving section 4. -/
theorem tooltip_fallback_match_witness :
    action_search_match_keyword true
      ⟨some [['x','y','z']], [['g']], [], some ([['x','y','z','w']], [])⟩ =
      (true, some 4) := by
  have h := tooltip_fallback_match
    ⟨some [['x','y','z']], [['g']], [], some ([['x','y','z','w']], [])⟩
    [['x','y','z']] [['x','y','z','w']] [] rfl rfl (by decide)
  have h4 := (h.1 (by decide)).2 ⟨by decide, by decide⟩
  rw [h4]
  rfl

theorem mem_add_to_results_list (r y : Row) (l : List Row) :
    y ∈ action_search_add_to_results_list r l ↔ y = r ∨ y ∈ l := by
  induction l with
  | nil => simp [action_search_add_to_results_list]
  | cons x xs ih =>
      rw [action_search_add_to_results_list]
      by_cases h : r.sect < x.sect
      · rw [if_pos h]
        simp [List.mem_cons]
      · rw [if_neg h]
        simp only [List.mem_cons, ih]
        tauto

theorem add_to_results_list_eq_insert_point (r : Row) (l : List Row) :
    action_search_add_to_results_list r l =
      l.takeWhile (fun x => decide (x.sect ≤ r.sect)) ++
        r :: l.dropWhile (fun x => decide (x.sect ≤ r.sect)) := by
  induction l with
  | nil => rfl
  | cons x xs ih =>
      rw [action_search_add_to_results_list]
      by_cases h : r.sect < x.sect
      · rw [if_pos h]
        have hx : decide (x.sect ≤ r.sect) = false := by
          rw [decide_eq_false_iff_not]; omega
        rw [List.takeWhile_cons, List.dropWhile_cons, hx]
        rfl
      · rw [if_neg h]
        have hx : decide (x.sect ≤ r.sect) = true := by
          rw [decide_eq_true_eq]; omega
        rw [List.takeWhile_cons, List.dropWhile_cons, hx, ih]
        rfl

theorem add_to_results_list_pairwise (r : Row) (l : List Row)
    (hs : l.Pairwise (fun a b => a.sect ≤ b.sect)) :
    (action_search_add_to_results_list r l).Pairwise (fun a b => a.sect ≤ b.sect) := by
  induction l with
  | nil => simp [action_search_add_to_results_list]
  | cons x xs ih =>
      rw [List.pairwise_cons] at hs
      rw [action_search_add_to_results_list]
      by_cases h : r.sect < x.sect
      · rw [if_pos h]
        rw [List.pairwise_cons]
        refine ⟨?_, List.pairwise_cons.mpr hs⟩
        intro y hy
        rcases List.mem_cons.mp hy with h1 | h1
        · subst h1; omega
        · have := hs.1 y h1; omega
      · rw [if_neg h]
        rw [List.pairwise_cons]
        refine ⟨?_, ih hs.2⟩
        intro y hy
        rcases (mem_add_to_results_list r y xs).mp hy with h1 | h1
        · subst h1; omega
        · exact hs.1 y h1

theorem add_to_results_list_stable (r : Row) (l : List Row)
    (hs : l.Pairwise (fun a b => a.sect ≤ b.sect)) :
    (action_search_add_to_results_list r l).filter (fun x => decide (x.sect = r.sect)) =
      l.filter (fun x => decide (x.sect = r.sect)) ++ [r] := by
  induction l with
  | nil => simp [action_search_add_to_results_list]
  | cons x xs ih =>
      rw [List.pairwise_cons] at hs
      rw [action_search_add_to_results_list]
      by_cases h : r.sect < x.sect
      · rw [if_pos h]
        have hx : ¬(x.sect = r.sect) := by omega
        have hxs : xs.filter (fun x => decide (x.sect = r.sect)) = [] := by
          rw [List.filter_eq_nil_iff]
          intro y hy
          have := hs.1 y hy
          simp only [decide_eq_true_eq]
          omega
        simp [List.filter_cons, hx, hxs]
      · rw [if_neg h]
        have hgoal := ih hs.2
        by_cases hx : x.sect = r.sect
        · simp [List.filter_cons, hx, hgoal]
        · simp [List.filter_cons, hx, hgoal]

theorem add_to_results_list_keeps_zeros (r : Row) (h t : List Row)
    (hh : ∀ x ∈ h, x.sect = 0) (hr : 0 < r.sect) :
    action_search_add_to_results_list r (h ++ t) =
      h ++ action_search_add_to_results_list r t := by
  induction h with
  | nil => rfl
  | cons x xs ih =>
      have hx : x.sect = 0 := hh x (List.mem_cons_self x xs)
      rw [List.cons_append, action_search_add_to_results_list,
        if_neg (by omega), ih (fun y hy => hh y (List.mem_cons_of_mem x hy))]
      rfl

/-- Claim C4: action_search_add_to_results_list inserts the new row
immediately before the first existing row whose section is strictly greater
than the new row's section, appending at the end when no such row exists (the
takeWhile/dropWhile equation); consequently a section-wise nondecreasing list
stays nondecreasing, rows of equal section keep their insertion order (the new
row lands after all equal-section rows), and history rows of section 0 added
first stay at the top when later rows carry positive sections. -/
theorem add_to_results_list_ordering (r : Row) (l h t : List Row) :
    (action_search_add_to_results_list r l =
      l.takeWhile (fun x => decide (x.sect ≤ r.sect)) ++
        r :: l.dropWhile (fun x => decide (x.sect ≤ r.sect))) ∧
    (l.Pairwise (fun a b => a.sect ≤ b.sect) →
      (action_search_add_to_results_list r l).Pairwise (fun a b => a.sect ≤ b.sect)) ∧
    (l.Pairwise (fun a b => a.sect ≤ b.sect) →
      (action_search_add_to_results_list r l).filter (fun x => decide (x.sect = r.sect)) =
        l.filter (fun x => decide (x.sect = r.sect)) ++ [r]) ∧
    ((∀ x ∈ h, x.sect = 0) → 0 < r.sect →
      action_search_add_to_results_list r (h ++ t) =
        h ++ action_search_add_to_results_list r t) :=
  ⟨add_to_results_list_eq_insert_point r l,
   add_to_results_list_pairwise r l,
   add_to_results_list_stable r l,
   add_to_results_list_keeps_zeros r h t⟩

/-- Claim C4 witness: inserting a section-2 row into a sorted list keeps it
sorted after the existing section-2 row, and a section-0 prefix is kept. -/
theorem add_to_results_list_ordering_witness :
    (action_search_add_to_results_list ⟨2, 10⟩ [⟨0, 1⟩, ⟨2, 2⟩, ⟨3, 3⟩] =
      [⟨0, 1⟩, ⟨2, 2⟩, ⟨2, 10⟩, ⟨3, 3⟩]) ∧
    (action_search_add_to_results_list ⟨2, 10⟩ [⟨0, 1⟩, ⟨2, 2⟩, ⟨3, 3⟩]).Pairwise
      (fun a b => a.sect ≤ b.sect) ∧
    (action_search_add_to_results_list ⟨2, 10⟩
        ([⟨0, 1⟩] ++ [⟨3, 3⟩]) = [⟨0, 1⟩] ++
          action_search_add_to_results_list ⟨2, 10⟩ [⟨3, 3⟩]) := by
  have h := add_to_results_list_ordering ⟨2, 10⟩ [⟨0, 1⟩, ⟨2, 2⟩, ⟨3, 3⟩]
    [⟨0, 1⟩] [⟨3, 3⟩]
  refine ⟨by decide, h.2.1 (by decide), h.2.2.2 (by decide) (by decide)⟩

end ActionSearch

namespace GimpConfig

theorem ifaceEqualProps_spec (C : Nat → List PropSpec) :
    ∀ (ss : List PropSpec) (as bs : List GVal),
      (ifaceEqualProps C ss as bs = true ↔
        ∀ x ∈ ss.zip (as.zip bs), x.1.readable = true →
          (valuesDiffer x.2.1 x.2.2 = false ∨
           (x.1.aggregate = true ∧ x.1.objSpec = true ∧ x.1.hasConfigIface = true ∧
            gimp_config_is_equal_to C x.2.1 x.2.2 = true))) := by
  intro ss
  induction ss with
  | nil =>
      intro as bs
      constructor
      · intro hx x hmem
        simp at hmem
      · intro hx
        simp [ifaceEqualProps]
  | cons s ss ih =>
      intro as bs
      cases as with
      | nil =>
          constructor
          · intro hx x hmem
            simp at hmem
          · intro hx
            simp [ifaceEqualProps]
      | cons a as =>
          cases bs with
          | nil =>
              constructor
              · intro hx x hmem
                simp at hmem
              · intro hx
                simp [ifaceEqualProps]
          | cons b bs =>
              rw [ifaceEqualProps, Bool.and_eq_true]
              rw [List.zip_cons_cons, List.zip_cons_cons]
              constructor
              · intro hx x hmem
                rcases List.mem_cons.mp hmem with h1 | h1
                · subst h1
                  intro hread
                  show valuesDiffer a b = false ∨
                    (s.aggregate = true ∧ s.objSpec = true ∧ s.hasConfigIface = true ∧
                      gimp_config_is_equal_to C a b = true)
                  have hread' : s.readable = true := hread
                  have h0 := hx.1
                  rw [if_pos hread'] at h0
                  by_cases hd : valuesDiffer a b = true
                  · rw [if_pos hd] at h0
                    right
                    by_cases hagg : (s.aggregate && s.objSpec && s.hasConfigIface) = true
                    · rw [if_pos hagg] at h0
                      simp only [Bool.and_eq_true] at hagg
                      exact ⟨hagg.1.1, hagg.1.2, hagg.2, h0⟩
                    · rw [if_neg hagg] at h0
                      exact absurd h0 (by simp)
                  · left
                    exact Bool.not_eq_true _ |>.mp hd
                · exact (ih as bs).mp hx.2 x h1
              · intro hx
                constructor
                · have h1 : s.readable = true →
                      (valuesDiffer a b = false ∨
                        (s.aggregate = true ∧ s.objSpec = true ∧
                          s.hasConfigIface = true ∧
                          gimp_config_is_equal_to C a b = true)) :=
                    hx ⟨s, a, b⟩ (List.mem_cons_self _ _)
                  by_cases hread : s.readable = true
                  · rw [if_pos hread]
                    rcases h1 hread with h2 | h2
                    · rw [h2]
                      simp
                    · obtain ⟨ha1, ha2, ha3, ha4⟩ := h2
                      by_cases hd : valuesDiffer a b = true
                      · rw [if_pos hd,
                          if_pos (show (s.aggregate && s.objSpec &&
                            s.hasConfigIface) = true by rw [ha1, ha2, ha3]; rfl)]
                        exact ha4
                      · rw [if_neg hd]
                  · rw [if_neg hread]
                · exact (ih as bs).mpr fun x hmem => hx x (List.mem_cons_of_mem _ hmem)

/-- Claim C6: for two GimpConfig objects of the same type using the default
interface implementation, gimp_config_is_equal_to returns TRUE exactly when
every readable property of the two objects compares equal under
g_param_values_cmp, except that a differing aggregate object-valued property
whose value type implements GimpConfig is instead compared recursively with
gimp_config_is_equal_to; non-readable properties never influence the result
(the characterization only constrains readable properties). -/
theorem default_propertywise_equality (C : Nat → List PropSpec)
    (ta oa tb ob : Nat) (as bs : List GVal) (hty : ta = tb) :
    gimp_config_is_equal_to C (GVal.obj ta oa as) (GVal.obj tb ob bs) = true ↔
      ∀ x ∈ (C ta).zip (as.zip bs), x.1.readable = true →
        (valuesDiffer x.2.1 x.2.2 = false ∨
         (x.1.aggregate = true ∧ x.1.objSpec = true ∧ x.1.hasConfigIface = true ∧
          gimp_config_is_equal_to C x.2.1 x.2.2 = true)) := by
  subst hty
  rw [gimp_config_is_equal_to, if_pos rfl]
  exact ifaceEqualProps_spec C (C ta) as bs

/-- Claim C6 witness: two distinct objects of one readable non-aggregate
property with equal values compare equal. -/
theorem default_propertywise_equality_witness :
    gimp_config_is_equal_to (fun _ => [⟨true, false, false, false⟩])
      (GVal.obj 0 1 [GVal.prim 3]) (GVal.obj 0 2 [GVal.prim 3]) = true := by
  refine (default_propertywise_equality (fun _ => [⟨true, false, false, false⟩])
    0 1 0 2 [GVal.prim 3] [GVal.prim 3] rfl).mpr ?_
  intro x hmem hread
  left
  have hx : x = ⟨⟨true, false, false, false⟩, GVal.prim 3, GVal.prim 3⟩ := by
    simpa using hmem
  subst hx
  rfl

end GimpConfig

namespace GimpConfig

/-- Claim C5 counterexample: when the scanner cannot be created (the creation
result is none), gimp_config_deserialize_string still invokes the deserialize
callback (third component true) and returns the callback's result (here TRUE)
instead of returning FALSE without invoking it: the code of the string variant
has no check of the created scanner. -/
theorem deserialize_string_invokes_callback_on_failed_scanner :
    (gimp_config_deserialize_string Unit Unit true true (none, some ())
        (fun _ => (true, none)) true).2.2 = true ∧
    (gimp_config_deserialize_string Unit Unit true true (none, some ())
        (fun _ => (true, none)) true).1 = true := by
  exact ⟨rfl, rfl⟩

/-- Claim C5 (amended): for every valid GimpConfig, each of the four
deserialization wrappers returns TRUE exactly when the deserialize callback
succeeded; gimp_config_deserialize_file, _gfile and _stream return FALSE
without invoking the callback when the scanner cannot be created, while
gimp_config_deserialize_string passes the created scanner (even an absent one)
straight to the callback; and, assuming scanner creation sets the error on
failure and the callback sets the error when it fails, whenever a wrapper
returns FALSE with a non-NULL error location the error has been set (the
internal assertion after a failed deserialize callback holds). -/
theorem deserialize_pass_fail_reporting (S E : Type)
    (create : Option S × Option E) (deserialize : Option S → Bool × Option E)
    (hasLoc : Bool)
    (hce : create.1 = none → create.2 ≠ none)
    (hde : ∀ s, (deserialize s).1 = false → (deserialize s).2 ≠ none) :
    (∀ s, create.1 = some s →
      ((gimp_config_deserialize_file S E true create deserialize hasLoc).1 =
          (deserialize (some s)).1 ∧
       (gimp_config_deserialize_gfile S E true create deserialize hasLoc).1 =
          (deserialize (some s)).1 ∧
       (gimp_config_deserialize_stream S E true create deserialize hasLoc).1 =
          (deserialize (some s)).1)) ∧
    ((gimp_config_deserialize_string S E true true create deserialize hasLoc).1 =
        (deserialize create.1).1) ∧
    (create.1 = none →
      (gimp_config_deserialize_file S E true create deserialize hasLoc =
          (false, if hasLoc then create.2 else none, false) ∧
       gimp_config_deserialize_gfile S E true create deserialize hasLoc =
          (false, if hasLoc then create.2 else none, false) ∧
       gimp_config_deserialize_stream S E true create deserialize hasLoc =
          (false, if hasLoc then create.2 else none, false))) ∧
    ((gimp_config_deserialize_string S E true true create deserialize hasLoc).2.2 =
        true) ∧
    (hasLoc = true →
      ((gimp_config_deserialize_file S E true create deserialize hasLoc).1 = false →
        (gimp_config_deserialize_file S E true create deserialize hasLoc).2.1 ≠ none) ∧
      ((gimp_config_deserialize_gfile S E true create deserialize hasLoc).1 = false →
        (gimp_config_deserialize_gfile S E true create deserialize hasLoc).2.1 ≠ none) ∧
      ((gimp_config_deserialize_stream S E true create deserialize hasLoc).1 = false →
        (gimp_config_deserialize_stream S E true create deserialize hasLoc).2.1 ≠ none) ∧
      ((gimp_config_deserialize_string S E true true create deserialize hasLoc).1 = false →
        (gimp_config_deserialize_string S E true true create deserialize hasLoc).2.1 ≠ none)) := by
  obtain ⟨cs, ce⟩ := create
  dsimp only at hce hde ⊢
  constructor
  · intro s hsome
    subst hsome
    exact ⟨rfl, rfl, rfl⟩
  constructor
  · cases cs <;> rfl
  constructor
  · intro hnone
    subst hnone
    exact ⟨rfl, rfl, rfl⟩
  constructor
  · cases cs <;> rfl
  · intro hl
    subst hl
    have herr : ∀ sc : Option S,
        ((deserialize sc).1 = false →
          (match (deserialize sc).2 with
           | some e => some e
           | none => ce) ≠ none) ∨
        ((deserialize sc).1 = true) := by
      intro sc
      by_cases hres : (deserialize sc).1 = true
      · right; exact hres
      · left
        intro _
        have h2 := hde sc (Bool.not_eq_true _ |>.mp hres)
        cases hd : (deserialize sc).2 with
        | none => exact absurd hd h2
        | some e => simp
    cases cs with
    | none =>
        refine ⟨?_, ?_, ?_, ?_⟩ <;>
          simp only [gimp_config_deserialize_file, gimp_config_deserialize_gfile,
            gimp_config_deserialize_stream, gimp_config_deserialize_string,
            if_true, Bool.and_self] <;>
          intro hf
        · exact hce rfl
        · exact hce rfl
        · exact hce rfl
        · rcases herr none with h | h
          · exact h hf
          · rw [h] at hf; exact absurd hf (by simp)
    | some s0 =>
        refine ⟨?_, ?_, ?_, ?_⟩ <;>
          simp only [gimp_config_deserialize_file, gimp_config_deserialize_gfile,
            gimp_config_deserialize_stream, gimp_config_deserialize_string,
            if_true, Bool.and_self] <;>
          intro hf
        · rcases herr (some s0) with h | h
          · exact h hf
          · rw [h] at hf; exact absurd hf (by simp)
        · rcases herr (some s0) with h | h
          · exact h hf
          · rw [h] at hf; exact absurd hf (by simp)
        · rcases herr (some s0) with h | h
          · exact h hf
          · rw [h] at hf; exact absurd hf (by simp)
        · rcases herr (some s0) with h | h
          · exact h hf
          · rw [h] at hf; exact absurd hf (by simp)

/-- Claim C5 witness: with a created scanner and a failing callback that sets
the error, the string wrapper invokes the callback. -/
theorem deserialize_pass_fail_reporting_witness :
    (gimp_config_deserialize_string Unit Unit true true (some (), none)
        (fun _ => (false, some ())) true).2.2 = true := by
  have h := deserialize_pass_fail_reporting Unit Unit (some (), none)
    (fun _ => (false, some ())) true
    (by intro hx; exact absurd hx (by simp))
    (by intro s hx; simp)
  exact h.2.2.2.1

end GimpConfig

namespace GimpConfig

/-- Claim C7: for every valid GimpConfig, gimp_config_serialize returns
exactly the value of the interface's serialize callback on the same arguments
and gimp_config_deserialize returns exactly the value of the interface's
deserialize callback on the same arguments; for an invalid config both return
FALSE without invoking any callback. -/
theorem thin_dispatch (W S D : Type) (config : ConfigDispatch W S D)
    (writer : W) (scanner : S) (nest_level : Int) (data : D) :
    (config.isConfig = true →
      (gimp_config_serialize W S D config writer data =
        (config.serialize writer data, true) ∧
       gimp_config_deserialize W S D config scanner nest_level data =
        (config.deserialize scanner nest_level data, true))) ∧
    (config.isConfig = false →
      (gimp_config_serialize W S D config writer data = (false, false) ∧
       gimp_config_deserialize W S D config scanner nest_level data =
        (false, false))) := by
  constructor
  · intro hv
    rw [gimp_config_serialize, gimp_config_deserialize, if_pos hv, if_pos hv]
    exact ⟨rfl, rfl⟩
  · intro hv
    rw [gimp_config_serialize, gimp_config_deserialize,
      if_neg (by simp [hv]), if_neg (by simp [hv])]
    exact ⟨rfl, rfl⟩

/-- Claim C7 witness: a valid config dispatches to its serialize callback. -/
theorem thin_dispatch_witness :
    gimp_config_serialize Nat Nat Nat
      ⟨true, fun _ _ => true, fun _ _ _ => false⟩ 0 0 = (true, true) := by
  have h := thin_dispatch Nat Nat Nat
    ⟨true, fun _ _ => true, fun _ _ _ => false⟩ 0 0 0 0
  exact (h.1 rfl).1

/-- Claim C10: gimp_config_serialize_to_file discards the boolean result of
the serialize callback, so for a valid config and filename its result is
determined solely by writer creation and by gimp_config_writer_finish (two
callbacks with the same writer effect give the same result); and
gimp_config_serialize_to_string discards both the callback's and the
writer-finish boolean results and always returns a (possibly empty) string for
a valid config, and NULL for an invalid one. -/
theorem serialize_ignores_callback_result (W : Type) (writer_new : Option W)
    (cb1 cb2 : W → Bool × W) (fin1 : W → Bool)
    (scb1 scb2 : GStr → Bool × GStr) (sfin1 sfin2 : GStr → Bool × GStr) :
    (gimp_config_serialize_to_file W true true writer_new cb1 fin1 =
      (match writer_new with
       | none => false
       | some w => fin1 (cb1 w).2)) ∧
    ((∀ w, (cb1 w).2 = (cb2 w).2) →
      gimp_config_serialize_to_file W true true writer_new cb1 fin1 =
        gimp_config_serialize_to_file W true true writer_new cb2 fin1) ∧
    (gimp_config_serialize_to_file W false true writer_new cb1 fin1 = false) ∧
    (∃ s, gimp_config_serialize_to_string true scb1 sfin1 = some s) ∧
    ((∀ x, (scb1 x).2 = (scb2 x).2) → (∀ x, (sfin1 x).2 = (sfin2 x).2) →
      gimp_config_serialize_to_string true scb1 sfin1 =
        gimp_config_serialize_to_string true scb2 sfin2) ∧
    (gimp_config_serialize_to_string false scb1 sfin1 = none) := by
  refine ⟨rfl, ?_, rfl, ⟨_, rfl⟩, ?_, rfl⟩
  · intro hcb
    simp only [gimp_config_serialize_to_file]
    cases writer_new with
    | none => rfl
    | some w => simp only [hcb w]
  · intro hcb hfin
    simp only [gimp_config_serialize_to_string]
    rw [hcb [], hfin (scb2 []).2]

/-- Claim C10 witness: flipping the serialize callback's boolean result does
not change the result of gimp_config_serialize_to_file. -/
theorem serialize_ignores_callback_result_witness :
    gimp_config_serialize_to_file Nat true true (some 0)
        (fun w => (false, w + 1)) (fun w => decide (w = 1)) =
      gimp_config_serialize_to_file Nat true true (some 0)
        (fun w => (true, w + 1)) (fun w => decide (w = 1)) := by
  have h := serialize_ignores_callback_result Nat (some 0)
    (fun w => (false, w + 1)) (fun w => (true, w + 1)) (fun w => decide (w = 1))
    (fun x => (true, x)) (fun x => (true, x)) (fun x => (true, x)) (fun x => (true, x))
  exact h.2.1 (fun w => rfl)

end GimpConfig
